import Mathlib

/-!
Verification development for the persistent-memory multilog/log storage
substrate.  The definitions below are shallow embeddings of the
specification functions in the repository:

* multilog layout and recovery (storage_node/src/multilog/layout_v.rs),
* the persistent-memory crash/write model (pmemlog/src/pmemspec_t.rs),
* the single-log start path (storage_node/src/log/start_v.rs),
* the file-backed region carving logic (storage_node/src/pmem/windows_pmemfile_t.rs).

Byte sequences are `List Nat` (each entry a byte value), machine integers
are `Nat` (or `Int` where the source uses `int`), and uninterpreted CRC
specification functions are taken as explicit function parameters.
-/

set_option maxRecDepth 10000

namespace VerifiedStorage

/-! ### Little-endian integer codec (model of the vstd `spec_uNN_to/from_le_bytes` functions) -/

/-- Little-endian byte encoding of `x` in `w` bytes. -/
def toLeBytes : Nat → Nat → List Nat
  | 0, _ => []
  | w + 1, x => x % 256 :: toLeBytes w (x / 256)

/-- Little-endian decoding of a byte list into one natural number. -/
def fromLeBytes : List Nat → Nat
  | [] => 0
  | b :: bs => b + 256 * fromLeBytes bs

def spec_u32_to_le_bytes (x : Nat) : List Nat := toLeBytes 4 x

def spec_u64_to_le_bytes (x : Nat) : List Nat := toLeBytes 8 x

def spec_u128_to_le_bytes (x : Nat) : List Nat := toLeBytes 16 x

def spec_u32_from_le_bytes (l : List Nat) : Nat := fromLeBytes l

def spec_u64_from_le_bytes (l : List Nat) : Nat := fromLeBytes l

def spec_u128_from_le_bytes (l : List Nat) : Nat := fromLeBytes l

/-! ### Byte extraction (model of `extract_bytes`, i.e. `Seq::subrange`) -/

/-- Subsequence of `bytes` from `pos` (inclusive) to `pos + len` (exclusive). -/
def extract_bytes (bytes : List Nat) (pos len : Nat) : List Nat :=
  (bytes.drop pos).take len

/-! ### Layout constants (multilog layout_v.rs) -/

def ABSOLUTE_POS_OF_GLOBAL_METADATA : Nat := 0
def RELATIVE_POS_OF_GLOBAL_VERSION_NUMBER : Nat := 0
def RELATIVE_POS_OF_GLOBAL_LENGTH_OF_REGION_METADATA : Nat := 8
def RELATIVE_POS_OF_GLOBAL_PROGRAM_GUID : Nat := 16
def LENGTH_OF_GLOBAL_METADATA : Nat := 32
def ABSOLUTE_POS_OF_GLOBAL_CRC : Nat := 32
def ABSOLUTE_POS_OF_REGION_METADATA : Nat := 40
def RELATIVE_POS_OF_REGION_NUM_LOGS : Nat := 0
def RELATIVE_POS_OF_REGION_WHICH_LOG : Nat := 4
def RELATIVE_POS_OF_REGION_PADDING : Nat := 8
def RELATIVE_POS_OF_REGION_REGION_SIZE : Nat := 16
def RELATIVE_POS_OF_REGION_LENGTH_OF_LOG_AREA : Nat := 24
def RELATIVE_POS_OF_REGION_MULTILOG_ID : Nat := 32
def LENGTH_OF_REGION_METADATA : Nat := 48
def ABSOLUTE_POS_OF_REGION_CRC : Nat := 88
def ABSOLUTE_POS_OF_LOG_CDB : Nat := 96
def ABSOLUTE_POS_OF_LOG_METADATA_FOR_CDB_FALSE : Nat := 104
def ABSOLUTE_POS_OF_LOG_METADATA_FOR_CDB_TRUE : Nat := 144
def RELATIVE_POS_OF_LOG_LOG_LENGTH : Nat := 0
def RELATIVE_POS_OF_LOG_PADDING : Nat := 8
def RELATIVE_POS_OF_LOG_HEAD : Nat := 16
def LENGTH_OF_LOG_METADATA : Nat := 32
def ABSOLUTE_POS_OF_LOG_CRC_FOR_CDB_FALSE : Nat := 136
def ABSOLUTE_POS_OF_LOG_CRC_FOR_CDB_TRUE : Nat := 176
def ABSOLUTE_POS_OF_LOG_AREA : Nat := 256
def MIN_LOG_AREA_SIZE : Nat := 1

def MULTILOG_PROGRAM_GUID : Nat := 0x21b8b4b3c7d140a9abf7e80c07b7f01f

def MULTILOG_PROGRAM_VERSION_NUMBER : Nat := 1

/-- Size in bytes of a stored CRC (constant CRC_SIZE). -/
def CRC_SIZE : Nat := 8

/-- Corruption-detecting boolean value meaning false (cdb0_val, CRC of the byte string 0). -/
def CDB_FALSE : Nat := 0xa32842d19001605e

/-- Corruption-detecting boolean value meaning true (cdb1_val, CRC of the byte string 1). -/
def CDB_TRUE : Nat := 0xab21aa73069531b7

def U32_MAX : Nat := 4294967295

def U128_MAX : Nat := 2 ^ 128 - 1

/-! ### Metadata record types and their serialization (multilog layout_v.rs) -/

structure GlobalMetadata where
  version_number : Nat
  length_of_region_metadata : Nat
  program_guid : Nat
deriving DecidableEq, Repr

def GlobalMetadata.spec_serialize (s : GlobalMetadata) : List Nat :=
  spec_u64_to_le_bytes s.version_number ++
    spec_u64_to_le_bytes s.length_of_region_metadata ++
    spec_u128_to_le_bytes s.program_guid

def GlobalMetadata.spec_deserialize (bytes : List Nat) : GlobalMetadata :=
  { version_number :=
      spec_u64_from_le_bytes (extract_bytes bytes RELATIVE_POS_OF_GLOBAL_VERSION_NUMBER 8)
    length_of_region_metadata :=
      spec_u64_from_le_bytes (extract_bytes bytes RELATIVE_POS_OF_GLOBAL_LENGTH_OF_REGION_METADATA 8)
    program_guid :=
      spec_u128_from_le_bytes (extract_bytes bytes RELATIVE_POS_OF_GLOBAL_PROGRAM_GUID 16) }

def GlobalMetadata.spec_serialized_len : Nat := LENGTH_OF_GLOBAL_METADATA

structure RegionMetadata where
  num_logs : Nat
  which_log : Nat
  _padding : Nat
  region_size : Nat
  log_area_len : Nat
  multilog_id : Nat
deriving DecidableEq, Repr

def RegionMetadata.spec_serialize (s : RegionMetadata) : List Nat :=
  spec_u32_to_le_bytes s.num_logs ++ spec_u32_to_le_bytes s.which_log ++
    spec_u64_to_le_bytes s._padding ++ spec_u64_to_le_bytes s.region_size ++
    spec_u64_to_le_bytes s.log_area_len ++ spec_u128_to_le_bytes s.multilog_id

def RegionMetadata.spec_deserialize (bytes : List Nat) : RegionMetadata :=
  { num_logs := spec_u32_from_le_bytes (extract_bytes bytes RELATIVE_POS_OF_REGION_NUM_LOGS 4)
    which_log := spec_u32_from_le_bytes (extract_bytes bytes RELATIVE_POS_OF_REGION_WHICH_LOG 4)
    _padding := spec_u64_from_le_bytes (extract_bytes bytes RELATIVE_POS_OF_REGION_PADDING 8)
    region_size := spec_u64_from_le_bytes (extract_bytes bytes RELATIVE_POS_OF_REGION_REGION_SIZE 8)
    log_area_len :=
      spec_u64_from_le_bytes (extract_bytes bytes RELATIVE_POS_OF_REGION_LENGTH_OF_LOG_AREA 8)
    multilog_id :=
      spec_u128_from_le_bytes (extract_bytes bytes RELATIVE_POS_OF_REGION_MULTILOG_ID 16) }

def RegionMetadata.spec_serialized_len : Nat := LENGTH_OF_REGION_METADATA

structure LogMetadata where
  log_length : Nat
  _padding : Nat
  head : Nat
deriving DecidableEq, Repr

def LogMetadata.spec_serialize (s : LogMetadata) : List Nat :=
  spec_u64_to_le_bytes s.log_length ++ spec_u64_to_le_bytes s._padding ++
    spec_u128_to_le_bytes s.head

def LogMetadata.spec_deserialize (bytes : List Nat) : LogMetadata :=
  { log_length := spec_u64_from_le_bytes (extract_bytes bytes RELATIVE_POS_OF_LOG_LOG_LENGTH 8)
    _padding := spec_u64_from_le_bytes (extract_bytes bytes RELATIVE_POS_OF_LOG_PADDING 8)
    head := spec_u128_from_le_bytes (extract_bytes bytes RELATIVE_POS_OF_LOG_HEAD 16) }

def LogMetadata.spec_serialized_len : Nat := LENGTH_OF_LOG_METADATA

/-! ### Extracting metadata from a persistent-memory region (multilog layout_v.rs) -/

def extract_global_metadata (mem : List Nat) : List Nat :=
  extract_bytes mem ABSOLUTE_POS_OF_GLOBAL_METADATA LENGTH_OF_GLOBAL_METADATA

def deserialize_global_metadata (mem : List Nat) : GlobalMetadata :=
  GlobalMetadata.spec_deserialize (extract_global_metadata mem)

def extract_global_crc (mem : List Nat) : List Nat :=
  extract_bytes mem ABSOLUTE_POS_OF_GLOBAL_CRC CRC_SIZE

def deserialize_global_crc (mem : List Nat) : Nat :=
  spec_u64_from_le_bytes (extract_global_crc mem)

def extract_region_metadata (mem : List Nat) : List Nat :=
  extract_bytes mem ABSOLUTE_POS_OF_REGION_METADATA LENGTH_OF_REGION_METADATA

def deserialize_region_metadata (mem : List Nat) : RegionMetadata :=
  RegionMetadata.spec_deserialize (extract_region_metadata mem)

def extract_region_crc (mem : List Nat) : List Nat :=
  extract_bytes mem ABSOLUTE_POS_OF_REGION_CRC CRC_SIZE

def deserialize_region_crc (mem : List Nat) : Nat :=
  spec_u64_from_le_bytes (extract_region_crc mem)

def extract_log_cdb (mem : List Nat) : List Nat :=
  extract_bytes mem ABSOLUTE_POS_OF_LOG_CDB CRC_SIZE

def deserialize_log_cdb (mem : List Nat) : Nat :=
  spec_u64_from_le_bytes (extract_log_cdb mem)

/-- Parse the corruption-detecting boolean stored at absolute offset 96:
none means corruption was detected, some b means the CDB is b. -/
def deserialize_and_check_log_cdb (mem : List Nat) : Option Bool :=
  let log_cdb := deserialize_log_cdb mem
  if log_cdb = CDB_FALSE then
    some false
  else if log_cdb = CDB_TRUE then
    some true
  else
    none

/-- Position of the active log metadata given the corruption-detecting boolean. -/
def get_log_metadata_pos (cdb : Bool) : Nat :=
  if cdb then ABSOLUTE_POS_OF_LOG_METADATA_FOR_CDB_TRUE else ABSOLUTE_POS_OF_LOG_METADATA_FOR_CDB_FALSE

def get_log_crc_end (cdb : Bool) : Nat :=
  get_log_metadata_pos cdb + LENGTH_OF_LOG_METADATA + CRC_SIZE

def extract_log_metadata (mem : List Nat) (cdb : Bool) : List Nat :=
  extract_bytes mem (get_log_metadata_pos cdb) LENGTH_OF_LOG_METADATA

def deserialize_log_metadata (mem : List Nat) (cdb : Bool) : LogMetadata :=
  LogMetadata.spec_deserialize (extract_log_metadata mem cdb)

def extract_log_crc (mem : List Nat) (cdb : Bool) : List Nat :=
  extract_bytes mem
    (if cdb then ABSOLUTE_POS_OF_LOG_CRC_FOR_CDB_TRUE else ABSOLUTE_POS_OF_LOG_CRC_FOR_CDB_FALSE)
    CRC_SIZE

def deserialize_log_crc (mem : List Nat) (cdb : Bool) : Nat :=
  spec_u64_from_le_bytes (extract_log_crc mem cdb)

/-! ### Extracting log data from a persistent-memory region -/

/-- Convert a virtual log position (relative to the head) to an offset
relative to the beginning of the log area in memory. -/
def relative_log_pos_to_log_area_offset
    (pos_relative_to_head head_log_area_offset log_area_len : Int) : Int :=
  let log_area_offset := head_log_area_offset + pos_relative_to_head
  if log_area_offset ≥ log_area_len then
    log_area_offset - log_area_len
  else
    log_area_offset

/-- Extract the virtual log from the contents of a persistent-memory region. -/
def extract_log (mem : List Nat) (log_area_len head log_length : Int) : List Nat :=
  let head_log_area_offset := head % log_area_len
  (List.range log_length.toNat).map (fun (pos_relative_to_head : Nat) =>
    mem.getD ((ABSOLUTE_POS_OF_LOG_AREA : Int) +
      relative_log_pos_to_log_area_offset (pos_relative_to_head : Int) head_log_area_offset
        log_area_len).toNat 0)

/-! ### Abstract log states (multilogspec_t.rs is not under src; the state
shape is taken from its uses in layout_v.rs and from spec section 3) -/

structure AbstractLogState where
  head : Int
  log : List Nat
  pending : List Nat
  capacity : Int
deriving DecidableEq, Repr

/-- Modelled from the spec: drop_pending_appends on one log discards the
pending (tentatively appended, uncommitted) bytes, keeping head, log and
capacity (spec section 3 data model; definition lives in the missing
multilogspec_t.rs). -/
def AbstractLogState.drop_pending_appends (s : AbstractLogState) : AbstractLogState :=
  { s with pending := [] }

structure AbstractMultiLogState where
  states : List AbstractLogState
deriving DecidableEq, Repr

/-- Modelled from the spec: drop_pending_appends on a multilog state drops
the pending bytes of every constituent log. -/
def AbstractMultiLogState.drop_pending_appends (s : AbstractMultiLogState) :
    AbstractMultiLogState :=
  { states := s.states.map AbstractLogState.drop_pending_appends }

/-- Placeholder log state used where the source calls unwrap on an Option
that is known to be some. -/
def emptyLogState : AbstractLogState :=
  { head := 0, log := [], pending := [], capacity := 0 }

/-! ### Recovery (multilog layout_v.rs).  The source declares the per-record
CRC specification function spec_crc as closed (uninterpreted); it is passed
here as the function parameters crcG, crcRM and crcL. -/

/-- Recovery of a single region's log once its metadata is known. -/
def recover_abstract_log_from_region_given_metadata
    (mem : List Nat) (log_area_len head log_length : Nat) : Option AbstractLogState :=
  if log_length > log_area_len ∨ head + log_length > U128_MAX then
    none
  else
    some { head := (head : Int)
           log := extract_log mem (log_area_len : Int) (head : Int) (log_length : Int)
           pending := []
           capacity := (log_area_len : Int) }

/-- Recovery of a single region's log given the corruption-detecting boolean. -/
def recover_abstract_log_from_region_given_cdb
    (crcG : GlobalMetadata → Nat) (crcRM : RegionMetadata → Nat) (crcL : LogMetadata → Nat)
    (mem : List Nat) (multilog_id : Nat) (num_logs which_log : Int) (cdb : Bool) :
    Option AbstractLogState :=
  if mem.length < ABSOLUTE_POS_OF_LOG_AREA + MIN_LOG_AREA_SIZE then
    none
  else if deserialize_global_crc mem ≠ crcG (deserialize_global_metadata mem) then
    none
  else if (deserialize_global_metadata mem).program_guid ≠ MULTILOG_PROGRAM_GUID then
    none
  else if (deserialize_global_metadata mem).version_number = 1 then
    if (deserialize_global_metadata mem).length_of_region_metadata ≠ LENGTH_OF_REGION_METADATA then
      none
    else if deserialize_region_crc mem ≠ crcRM (deserialize_region_metadata mem) then
      none
    else if (deserialize_region_metadata mem).region_size ≠ mem.length
        ∨ (deserialize_region_metadata mem).multilog_id ≠ multilog_id
        ∨ ((deserialize_region_metadata mem).num_logs : Int) ≠ num_logs
        ∨ ((deserialize_region_metadata mem).which_log : Int) ≠ which_log
        ∨ (deserialize_region_metadata mem).log_area_len < MIN_LOG_AREA_SIZE
        ∨ mem.length < ABSOLUTE_POS_OF_LOG_AREA + (deserialize_region_metadata mem).log_area_len then
      none
    else if deserialize_log_crc mem cdb ≠ crcL (deserialize_log_metadata mem cdb) then
      none
    else
      recover_abstract_log_from_region_given_metadata mem
        (deserialize_region_metadata mem).log_area_len
        (deserialize_log_metadata mem cdb).head
        (deserialize_log_metadata mem cdb).log_length
  else
    none

/-- Recovery of a whole multilog given the corruption-detecting boolean. -/
def recover_given_cdb
    (crcG : GlobalMetadata → Nat) (crcRM : RegionMetadata → Nat) (crcL : LogMetadata → Nat)
    (mems : List (List Nat)) (multilog_id : Nat) (cdb : Bool) : Option AbstractMultiLogState :=
  let seq_option := mems.mapIdx (fun idx c =>
    recover_abstract_log_from_region_given_cdb crcG crcRM crcL c multilog_id
      (mems.length : Int) (idx : Int) cdb)
  if seq_option.all Option.isSome then
    some { states := seq_option.map (fun ot => ot.getD emptyLogState) }
  else
    none

/-- Recovery of the corruption-detecting boolean from region 0. -/
def recover_cdb (crcG : GlobalMetadata → Nat) (mem : List Nat) : Option Bool :=
  if mem.length < ABSOLUTE_POS_OF_REGION_METADATA then
    none
  else if deserialize_global_crc mem ≠ crcG (deserialize_global_metadata mem) then
    none
  else if (deserialize_global_metadata mem).program_guid ≠ MULTILOG_PROGRAM_GUID then
    none
  else if (deserialize_global_metadata mem).version_number = 1 then
    if mem.length < ABSOLUTE_POS_OF_LOG_CDB + CRC_SIZE then
      none
    else
      deserialize_and_check_log_cdb mem
  else
    none

/-- Recovery of a whole multilog from the contents of its regions. -/
def recover_all
    (crcG : GlobalMetadata → Nat) (crcRM : RegionMetadata → Nat) (crcL : LogMetadata → Nat)
    (mems : List (List Nat)) (multilog_id : Nat) : Option AbstractMultiLogState :=
  if mems.length < 1 ∨ mems.length > U32_MAX then
    none
  else
    match recover_cdb crcG (mems.getD 0 []) with
    | some cdb => recover_given_cdb crcG crcRM crcL mems multilog_id cdb
    | none => none

/-! ### Persistent-memory write and crash model (pmemlog/src/pmemspec_t.rs).
Sets of chunk ids (Verus Set of int) are represented as boolean predicates
on Int so that the definitions stay executable. -/

/-- Size of a persistence chunk: persistent memory is flushed in chunks of
this many bytes. -/
def persistence_chunk_size : Int := 8

/-- Byte at address addr after writing write_bytes at write_addr, given its
pre-write value. -/
def update_byte_to_reflect_write
    (addr : Int) (prewrite_byte : Nat) (write_addr : Int) (write_bytes : List Nat) : Nat :=
  if write_addr ≤ addr ∧ addr < write_addr + write_bytes.length then
    write_bytes.getD (addr - write_addr).toNat 0
  else
    prewrite_byte

/-- Contents of persistent memory after fully writing write_bytes at
write_addr. -/
def update_contents_to_reflect_write
    (prewrite_contents : List Nat) (write_addr : Int) (write_bytes : List Nat) : List Nat :=
  (List.range prewrite_contents.length).map (fun (addr : Nat) =>
    update_byte_to_reflect_write (addr : Int) (prewrite_contents.getD addr 0)
      write_addr write_bytes)

/-- Byte at address addr after a write of write_bytes at write_addr was
initiated but only the chunks in chunks_flushed were flushed. -/
def update_byte_to_reflect_partially_flushed_write
    (addr : Int) (prewrite_byte : Nat) (write_addr : Int) (write_bytes : List Nat)
    (chunks_flushed : Int → Bool) : Nat :=
  if chunks_flushed (addr / persistence_chunk_size) then
    update_byte_to_reflect_write addr prewrite_byte write_addr write_bytes
  else
    prewrite_byte

/-- Contents of persistent memory after a write of write_bytes at write_addr
was initiated and exactly the chunks in chunks_flushed were flushed. -/
def update_contents_to_reflect_partially_flushed_write
    (contents : List Nat) (write_addr : Int) (write_bytes : List Nat)
    (chunks_flushed : Int → Bool) : List Nat :=
  (List.range contents.length).map (fun (addr : Nat) =>
    update_byte_to_reflect_partially_flushed_write (addr : Int) (contents.getD addr 0)
      write_addr write_bytes chunks_flushed)

/-- Effect on the region view of WriteRestrictedPersistentMemory.write: the
wrapped PersistentMemory.write updates the contents to reflect the whole
write (the ensures clause of both functions). -/
def wrpm_write (contents : List Nat) (addr : Nat) (bytes : List Nat) : List Nat :=
  update_contents_to_reflect_write contents (addr : Int) bytes

/-! ### File-backed persistent-memory regions (windows_pmemfile_t.rs).
Only the pure carving logic is modelled; the operating-system calls
(CreateFileA, CreateFileMappingA, MapViewOfFile) are modelled as succeeding,
so MemoryMappedFile.from_file yields a mapping whose size is the requested
total size. -/

inductive PmemError where
  | CannotOpenPmFile
  | AccessOutOfRange
  | InvalidFileName
deriving DecidableEq, Repr

/-- Usize maximum on the 64-bit targets the file is written for. -/
def USIZE_MAX : Nat := 2 ^ 64 - 1

/-- Model of MemoryMappedFileSection.new: a section of len bytes at offset
within a mapping of mmf_size bytes.  Mirrors the source check
offset + len >= mmf.size, which rejects sections that reach the end of the
file. -/
def MemoryMappedFileSection.new (mmf_size offset len : Nat) :
    Except PmemError (Nat × Nat) :=
  if offset + len ≥ mmf_size then
    .error .AccessOutOfRange
  else
    .ok (offset, len)

/-- Model of the first loop of FileBackedPersistentMemoryRegions.new_internal:
sum the region sizes, failing if a partial sum reaches usize MAX. -/
def total_size_of_region_sizes : List Nat → Nat → Except PmemError Nat
  | [], total_size => .ok total_size
  | region_size :: rest, total_size =>
      if region_size ≥ USIZE_MAX - total_size then
        .error .AccessOutOfRange
      else
        total_size_of_region_sizes rest (total_size + region_size)

/-- Model of the second loop of FileBackedPersistentMemoryRegions.new_internal:
carve one section per region size, each at the running offset. -/
def carve_sections (mmf_size : Nat) : List Nat → Nat → Except PmemError (List (Nat × Nat))
  | [], _ => .ok []
  | region_size :: rest, current_offset => do
      let sec ← MemoryMappedFileSection.new mmf_size current_offset region_size
      let more ← carve_sections mmf_size rest (current_offset + region_size)
      .ok (sec :: more)

/-- Model of FileBackedPersistentMemoryRegions.new (via new_internal): map a
single file of the total size and carve it into one section per region
size.  Returns the (offset, length) pair of each carved region. -/
def FileBackedPersistentMemoryRegions.new (region_sizes : List Nat) :
    Except PmemError (List (Nat × Nat)) := do
  let total_size ← total_size_of_region_sizes region_sizes 0
  carve_sections total_size region_sizes 0

/-! ### Single-log layout and recovery.  The single-log layout module
(storage_node/src/log/layout_v.rs) is not under src; only its user
start_v.rs is.  The definitions below are modelled from spec sections 3
and 4.E, which describe the same absolute offsets as the multilog layout
with the region metadata carrying the log id instead of the multilog
bookkeeping. -/

/-- Modelled from the spec: the GUID of the single-log program
(LOG_PROGRAM_GUID lives in the missing log/layout_v.rs; its concrete value
is not given by the spec and does not affect any claim, since only equality
against it is ever tested). -/
def LOG_PROGRAM_GUID : Nat := 0x112233445566778899aabbccddeeff00

/-- Modelled from the spec: the only supported program version number is 1. -/
def LOG_PROGRAM_VERSION_NUMBER : Nat := 1

/-- Region metadata of the single-log engine, as used by start_v.rs. -/
structure SRegionMetadata where
  region_size : Nat
  log_id : Nat
  log_area_len : Nat
deriving DecidableEq, Repr

/-- Modelled from the spec: the single-log region metadata occupies bytes
40..88 with region_size at relative offset 16, log_area_len at 24 and the
id at 32 (spec section 3). -/
def sdeserialize_region_metadata (mem : List Nat) : SRegionMetadata :=
  let bytes := extract_bytes mem ABSOLUTE_POS_OF_REGION_METADATA LENGTH_OF_REGION_METADATA
  { region_size := spec_u64_from_le_bytes (extract_bytes bytes RELATIVE_POS_OF_REGION_REGION_SIZE 8)
    log_id := spec_u128_from_le_bytes (extract_bytes bytes RELATIVE_POS_OF_REGION_MULTILOG_ID 16)
    log_area_len :=
      spec_u64_from_le_bytes (extract_bytes bytes RELATIVE_POS_OF_REGION_LENGTH_OF_LOG_AREA 8) }

/-- Modelled from the spec: recovery of a single log region under a known
corruption-detecting boolean (recover_given_cdb in the missing
log/layout_v.rs), following the validation steps of spec section 4.E. -/
def srecover_given_cdb
    (crcG : GlobalMetadata → Nat) (crcR : SRegionMetadata → Nat) (crcL : LogMetadata → Nat)
    (mem : List Nat) (log_id : Nat) (cdb : Bool) : Option AbstractLogState :=
  if mem.length < ABSOLUTE_POS_OF_LOG_AREA + MIN_LOG_AREA_SIZE then
    none
  else if deserialize_global_crc mem ≠ crcG (deserialize_global_metadata mem) then
    none
  else if (deserialize_global_metadata mem).program_guid ≠ LOG_PROGRAM_GUID then
    none
  else if (deserialize_global_metadata mem).version_number = 1 then
    if (deserialize_global_metadata mem).length_of_region_metadata ≠ LENGTH_OF_REGION_METADATA then
      none
    else if deserialize_region_crc mem ≠ crcR (sdeserialize_region_metadata mem) then
      none
    else if (sdeserialize_region_metadata mem).region_size ≠ mem.length
        ∨ (sdeserialize_region_metadata mem).log_id ≠ log_id
        ∨ (sdeserialize_region_metadata mem).log_area_len < MIN_LOG_AREA_SIZE
        ∨ mem.length < ABSOLUTE_POS_OF_LOG_AREA + (sdeserialize_region_metadata mem).log_area_len then
      none
    else if deserialize_log_crc mem cdb ≠ crcL (deserialize_log_metadata mem cdb) then
      none
    else
      recover_abstract_log_from_region_given_metadata mem
        (sdeserialize_region_metadata mem).log_area_len
        (deserialize_log_metadata mem cdb).head
        (deserialize_log_metadata mem cdb).log_length
  else
    none

/-- Error type of the log engine (logimpl_t.rs), restricted to the variants
the start path returns. -/
inductive LogErr where
  | CRCMismatch
  | StartFailedDueToProgramVersionNumberUnsupported (version_number max_supported : Nat)
  | StartFailedDueToLogIDMismatch (log_id_expected log_id_read : Nat)
  | StartFailedDueToRegionSizeMismatch (region_size_expected region_size_read : Nat)
  | StartFailedDueToInvalidMemoryContents
deriving DecidableEq, Repr

/-- In-memory log information reconstructed by start (logimpl_v.rs). -/
structure LogInfo where
  log_area_len : Nat
  head : Nat
  head_log_area_offset : Nat
  log_length : Nat
  log_plus_pending_length : Nat
deriving DecidableEq, Repr

/-- The values produced by the possibly-corrupting metadata reads that
read_log_variables performs (read_and_deserialize returns structures
deserialized from possibly corrupted bytes). -/
structure Readout where
  gm : GlobalMetadata
  gcrc : Nat
  rm : SRegionMetadata
  rcrc : Nat
  lm : LogMetadata
  lcrc : Nat
deriving DecidableEq, Repr

/-- The readout an uncorrupted (impervious) device produces: every read
returns exactly what the committed contents hold. -/
def trueReadout (mem : List Nat) (cdb : Bool) : Readout :=
  { gm := deserialize_global_metadata mem
    gcrc := deserialize_global_crc mem
    rm := sdeserialize_region_metadata mem
    rcrc := deserialize_region_crc mem
    lm := deserialize_log_metadata mem cdb
    lcrc := deserialize_log_crc mem cdb }

/-- Model of read_log_variables (start_v.rs): mem is the committed contents
of the region (get_region_size returns its length), rd holds the outcomes
of the metadata reads, and each check_crc_deserialized call compares the
CRC of the read record against the read CRC value. -/
def read_log_variables
    (crcG : GlobalMetadata → Nat) (crcR : SRegionMetadata → Nat) (crcL : LogMetadata → Nat)
    (mem : List Nat) (log_id : Nat) (cdb : Bool) (rd : Readout) : Except LogErr LogInfo :=
  if mem.length < ABSOLUTE_POS_OF_LOG_AREA + MIN_LOG_AREA_SIZE then
    .error .StartFailedDueToInvalidMemoryContents
  else if crcG rd.gm ≠ rd.gcrc then
    .error .CRCMismatch
  else if rd.gm.program_guid ≠ LOG_PROGRAM_GUID then
    .error .StartFailedDueToInvalidMemoryContents
  else if rd.gm.version_number ≠ LOG_PROGRAM_VERSION_NUMBER then
    .error (.StartFailedDueToProgramVersionNumberUnsupported rd.gm.version_number
      LOG_PROGRAM_VERSION_NUMBER)
  else if rd.gm.length_of_region_metadata ≠ LENGTH_OF_REGION_METADATA then
    .error .StartFailedDueToInvalidMemoryContents
  else if crcR rd.rm ≠ rd.rcrc then
    .error .CRCMismatch
  else if rd.rm.region_size ≠ mem.length then
    .error (.StartFailedDueToRegionSizeMismatch mem.length rd.rm.region_size)
  else if rd.rm.log_id ≠ log_id then
    .error (.StartFailedDueToLogIDMismatch log_id rd.rm.log_id)
  else if rd.rm.log_area_len > mem.length then
    .error .StartFailedDueToInvalidMemoryContents
  else if mem.length - rd.rm.log_area_len < ABSOLUTE_POS_OF_LOG_AREA then
    .error .StartFailedDueToInvalidMemoryContents
  else if rd.rm.log_area_len < MIN_LOG_AREA_SIZE then
    .error .StartFailedDueToInvalidMemoryContents
  else if crcL rd.lm ≠ rd.lcrc then
    .error .CRCMismatch
  else if rd.lm.log_length > rd.rm.log_area_len then
    .error .StartFailedDueToInvalidMemoryContents
  else if rd.lm.log_length > U128_MAX - rd.lm.head then
    .error .StartFailedDueToInvalidMemoryContents
  else
    .ok { log_area_len := rd.rm.log_area_len
          head := rd.lm.head
          head_log_area_offset := rd.lm.head % rd.rm.log_area_len
          log_length := rd.lm.log_length
          log_plus_pending_length := rd.lm.log_length }

/-! ### Concrete data used by the witness theorems -/

/-- Trivial CRC specification function for global metadata (any function is
admissible since the source leaves spec_crc uninterpreted). -/
def czG : GlobalMetadata → Nat := fun _ => 0

def czRM : RegionMetadata → Nat := fun _ => 0

def czL : LogMetadata → Nat := fun _ => 0

def czR : SRegionMetadata → Nat := fun _ => 0

/-- Contents of a valid multilog region 0 of a one-log multilog with
multilog id 0: version 1, region size 257, log area length 1, CDB false,
empty log, all CRC fields 0 to match the trivial CRC functions. -/
def wregion : List Nat :=
  spec_u64_to_le_bytes 1 ++ spec_u64_to_le_bytes 48 ++
  spec_u128_to_le_bytes MULTILOG_PROGRAM_GUID ++
  spec_u64_to_le_bytes 0 ++
  spec_u32_to_le_bytes 1 ++ spec_u32_to_le_bytes 0 ++ spec_u64_to_le_bytes 0 ++
  spec_u64_to_le_bytes 257 ++ spec_u64_to_le_bytes 1 ++ spec_u128_to_le_bytes 0 ++
  spec_u64_to_le_bytes 0 ++
  spec_u64_to_le_bytes CDB_FALSE ++
  List.replicate 32 0 ++
  spec_u64_to_le_bytes 0 ++
  List.replicate 112 0 ++ [0]

/-- wregion with one byte of the inactive (CDB true) log-metadata copy
changed. -/
def wregionB : List Nat := wregion.set 150 7

/-- wregion with one byte of its (ignored, since it is not region 0) CDB
field changed. -/
def wregionC : List Nat := wregion.set 100 5

/-- Contents of a valid single-log region with log id 77, mirroring
wregion with the single-log program GUID. -/
def wsingle : List Nat :=
  spec_u64_to_le_bytes 1 ++ spec_u64_to_le_bytes 48 ++
  spec_u128_to_le_bytes LOG_PROGRAM_GUID ++
  spec_u64_to_le_bytes 0 ++
  spec_u32_to_le_bytes 0 ++ spec_u32_to_le_bytes 0 ++ spec_u64_to_le_bytes 0 ++
  spec_u64_to_le_bytes 257 ++ spec_u64_to_le_bytes 1 ++ spec_u128_to_le_bytes 77 ++
  spec_u64_to_le_bytes 0 ++
  spec_u64_to_le_bytes CDB_FALSE ++
  List.replicate 32 0 ++
  spec_u64_to_le_bytes 0 ++
  List.replicate 112 0 ++ [0]

/-- Region contents with a three-byte log area, used by the circular-layout
witness. -/
def wmemLogArea : List Nat := List.replicate 256 0 ++ [10, 20, 30]

/-- Permission accepting every contents, used by the write-permission
witness. -/
def permAll : List Nat → Bool := fun _ => true

/-! ### Helper lemmas -/

theorem toLeBytes_length (w x : Nat) : (toLeBytes w x).length = w := by
  induction w generalizing x with
  | zero => rfl
  | succ w ih => simp [toLeBytes, ih]

theorem fromLeBytes_toLeBytes (w x : Nat) :
    fromLeBytes (toLeBytes w x) = x % 256 ^ w := by
  induction w generalizing x with
  | zero => simp [toLeBytes, fromLeBytes, Nat.mod_one]
  | succ w ih =>
      calc fromLeBytes (toLeBytes (w + 1) x)
          = x % 256 + 256 * (x / 256 % 256 ^ w) := by simp [toLeBytes, fromLeBytes, ih]
        _ = x % (256 * 256 ^ w) := Nat.mod_mul.symm
        _ = x % 256 ^ (w + 1) := by ring_nf

theorem fromLeBytes_toLeBytes_of_lt {w x : Nat} (h : x < 256 ^ w) :
    fromLeBytes (toLeBytes w x) = x := by
  rw [fromLeBytes_toLeBytes, Nat.mod_eq_of_lt h]

theorem fromLeBytes_lt {l : List Nat} (h : ∀ b ∈ l, b < 256) :
    fromLeBytes l < 256 ^ l.length := by
  induction l with
  | nil => simp [fromLeBytes]
  | cons b bs ih =>
      have hb : b < 256 := h b (by simp)
      have hbs : fromLeBytes bs < 256 ^ bs.length := ih (fun c hc => h c (by simp [hc]))
      calc fromLeBytes (b :: bs) = b + 256 * fromLeBytes bs := rfl
        _ < 256 + 256 * fromLeBytes bs := by omega
        _ = 256 * (fromLeBytes bs + 1) := by ring
        _ ≤ 256 * 256 ^ bs.length := by
              exact Nat.mul_le_mul_left 256 (by omega)
        _ = 256 ^ (b :: bs).length := by simp [List.length_cons]; ring

theorem extract_bytes_length {bytes : List Nat} {pos len : Nat}
    (h : pos + len ≤ bytes.length) : (extract_bytes bytes pos len).length = len := by
  simp [extract_bytes]
  omega

theorem getElem?_extract_bytes (bytes : List Nat) (pos len k : Nat) :
    (extract_bytes bytes pos len)[k]? = if k < len then bytes[pos + k]? else none := by
  simp [extract_bytes, List.getElem?_take, List.getElem?_drop]

theorem length_spec_u32_to_le_bytes (x : Nat) : (spec_u32_to_le_bytes x).length = 4 :=
  toLeBytes_length 4 x

theorem length_spec_u64_to_le_bytes (x : Nat) : (spec_u64_to_le_bytes x).length = 8 :=
  toLeBytes_length 8 x

theorem length_spec_u128_to_le_bytes (x : Nat) : (spec_u128_to_le_bytes x).length = 16 :=
  toLeBytes_length 16 x

theorem extract_bytes_skip (xs ys : List Nat) (p n : Nat) :
    extract_bytes (xs ++ ys) (xs.length + p) n = extract_bytes ys p n := by
  simp [extract_bytes, List.drop_append]

theorem extract_bytes_of_ge (xs ys : List Nat) (p n : Nat) (h : xs.length ≤ p) :
    extract_bytes (xs ++ ys) p n = extract_bytes ys (p - xs.length) n := by
  obtain ⟨q, rfl⟩ : ∃ q, p = xs.length + q := ⟨p - xs.length, by omega⟩
  rw [extract_bytes_skip]
  congr 1
  omega

theorem extract_bytes_front (xs ys : List Nat) (n : Nat) (h : n ≤ xs.length) :
    extract_bytes (xs ++ ys) 0 n = extract_bytes xs 0 n := by
  simp [extract_bytes, List.take_append_of_le_length h]

theorem extract_bytes_all (xs : List Nat) : extract_bytes xs 0 xs.length = xs := by
  simp [extract_bytes]

theorem extract_bytes_eq_self (xs : List Nat) (n : Nat) (h : xs.length = n) :
    extract_bytes xs 0 n = xs := by
  subst h
  exact extract_bytes_all xs

theorem extract_peel (w x : Nat) (ys : List Nat) (p n : Nat) (h : w ≤ p) :
    extract_bytes (toLeBytes w x ++ ys) p n = extract_bytes ys (p - w) n := by
  have h2 : (toLeBytes w x).length ≤ p := by rwa [toLeBytes_length]
  rw [extract_bytes_of_ge _ _ _ _ h2, toLeBytes_length]

theorem extract_here (w x : Nat) (ys : List Nat) :
    extract_bytes (toLeBytes w x ++ ys) 0 w = toLeBytes w x := by
  rw [extract_bytes_front _ _ _ (by rw [toLeBytes_length])]
  exact extract_bytes_eq_self _ _ (toLeBytes_length w x)

/-! ### Claim theorems -/

/-- C10: recover_all returns None on a sequence of zero regions and on any
sequence of more than u32::MAX regions; multilog recovery never succeeds
outside the arity range 1..=u32::MAX. -/
theorem recover_all_none_outside_arity_range
    (crcG : GlobalMetadata → Nat) (crcRM : RegionMetadata → Nat) (crcL : LogMetadata → Nat)
    (mems : List (List Nat)) (multilog_id : Nat)
    (h : mems.length = 0 ∨ mems.length > U32_MAX) :
    recover_all crcG crcRM crcL mems multilog_id = none := by
  unfold recover_all
  rw [if_pos]
  rcases h with h | h
  · exact Or.inl (by omega)
  · exact Or.inr h

/-- Witness for C10: the empty sequence of regions has zero length, and
recover_all on it is None. -/
theorem recover_all_none_outside_arity_range_witness :
    (([] : List (List Nat)).length = 0 ∨ ([] : List (List Nat)).length > U32_MAX)
    ∧ recover_all czG czRM czL [] 0 = none :=
  ⟨Or.inl rfl, recover_all_none_outside_arity_range czG czRM czL [] 0 (Or.inl rfl)⟩

/-- C8: on a region long enough to hold the CDB, recovery parses the eight
bytes at absolute offset 96 as a little-endian u64; the result is
Some false exactly when that value is CDB_FALSE, Some true exactly when it
is CDB_TRUE, and None for every other value. -/
theorem deserialize_and_check_log_cdb_characterization
    (mem : List Nat) (_h : mem.length ≥ ABSOLUTE_POS_OF_LOG_CDB + CRC_SIZE) :
    deserialize_log_cdb mem
        = spec_u64_from_le_bytes (extract_bytes mem ABSOLUTE_POS_OF_LOG_CDB 8)
    ∧ (deserialize_and_check_log_cdb mem = some false ↔ deserialize_log_cdb mem = CDB_FALSE)
    ∧ (deserialize_and_check_log_cdb mem = some true ↔ deserialize_log_cdb mem = CDB_TRUE)
    ∧ (deserialize_and_check_log_cdb mem = none ↔
        deserialize_log_cdb mem ≠ CDB_FALSE ∧ deserialize_log_cdb mem ≠ CDB_TRUE) := by
  refine ⟨rfl, ?_⟩
  simp only [deserialize_and_check_log_cdb]
  split_ifs with h1 h2 <;> simp_all [CDB_FALSE, CDB_TRUE]

/-- Witness for C8: the witness region is long enough, its CDB bytes decode
to CDB_FALSE, and the characterization applies to it. -/
theorem deserialize_and_check_log_cdb_characterization_witness :
    wregion.length ≥ ABSOLUTE_POS_OF_LOG_CDB + CRC_SIZE
    ∧ (deserialize_log_cdb wregion
          = spec_u64_from_le_bytes (extract_bytes wregion ABSOLUTE_POS_OF_LOG_CDB 8)
       ∧ (deserialize_and_check_log_cdb wregion = some false ↔
            deserialize_log_cdb wregion = CDB_FALSE)
       ∧ (deserialize_and_check_log_cdb wregion = some true ↔
            deserialize_log_cdb wregion = CDB_TRUE)
       ∧ (deserialize_and_check_log_cdb wregion = none ↔
            deserialize_log_cdb wregion ≠ CDB_FALSE ∧ deserialize_log_cdb wregion ≠ CDB_TRUE)) :=
  ⟨by decide, deserialize_and_check_log_cdb_characterization wregion (by decide)⟩

/-- C4 (failing input): carving a file-backed persistent-memory collection
with a single region of size 4096 fails with AccessOutOfRange, because
MemoryMappedFileSection.new rejects the last section, whose offset plus
length equals the file size.  The claim says new returns Ok with one region
per entry. -/
theorem file_backed_new_fails_on_single_region :
    FileBackedPersistentMemoryRegions.new [4096] = .error PmemError.AccessOutOfRange := by
  rfl

/-- C5: a write admitted by the write-restricted persistent memory gate
(that is, one whose permission accepts the partially flushed contents for
every set of flushed chunks) leaves the view equal to the contents with the
write fully applied, and that resulting view is itself accepted by the
permission (it is the partial flush with every chunk flushed). -/
theorem wrpm_write_spec
    (contents : List Nat) (addr : Nat) (bytes : List Nat) (perm : List Nat → Bool)
    (_hbound : addr + bytes.length ≤ contents.length)
    (hperm : ∀ chunks_flushed : Int → Bool,
      perm (update_contents_to_reflect_partially_flushed_write contents (addr : Int) bytes
        chunks_flushed) = true) :
    wrpm_write contents addr bytes = update_contents_to_reflect_write contents (addr : Int) bytes
    ∧ perm (wrpm_write contents addr bytes) = true := by
  refine ⟨rfl, ?_⟩
  have hall : update_contents_to_reflect_partially_flushed_write contents (addr : Int) bytes
      (fun _ => true) = update_contents_to_reflect_write contents (addr : Int) bytes := by
    unfold update_contents_to_reflect_partially_flushed_write update_contents_to_reflect_write
      update_byte_to_reflect_partially_flushed_write
    simp
  have := hperm (fun _ => true)
  rwa [hall] at this

/-- Witness for C5: a concrete admissible write with the all-accepting
permission. -/
theorem wrpm_write_spec_witness :
    (1 + ([9] : List Nat).length ≤ ([1, 2, 3] : List Nat).length)
    ∧ (∀ chunks_flushed : Int → Bool,
        permAll (update_contents_to_reflect_partially_flushed_write [1, 2, 3] (1 : Int) [9]
          chunks_flushed) = true)
    ∧ (wrpm_write [1, 2, 3] 1 [9]
        = update_contents_to_reflect_write [1, 2, 3] ((1 : Nat) : Int) [9]
       ∧ permAll (wrpm_write [1, 2, 3] 1 [9]) = true) :=
  ⟨by decide, fun _ => rfl, wrpm_write_spec [1, 2, 3] 1 [9] permAll (by decide) (fun _ => rfl)⟩

/-- C6: with a positive log area length, a head offset equal to head modulo
the log area length, and a relative position r within the log area, the
wrap-around offset computation coincides with addition modulo the log area
length, and the byte of the extracted log at position r comes from absolute
offset 256 + ((head_log_area_offset + r) mod log_area_len) of the region
contents. -/
theorem relative_log_pos_is_mod_and_extract_log_reads_there
    (log_area_len head head_log_area_offset r log_length : Int) (mem : List Nat)
    (hlal : 0 < log_area_len)
    (hhlo : head_log_area_offset = head % log_area_len)
    (hr0 : 0 ≤ r) (hr : r < log_area_len) :
    relative_log_pos_to_log_area_offset r head_log_area_offset log_area_len
        = (head_log_area_offset + r) % log_area_len
    ∧ (r < log_length →
        (extract_log mem log_area_len head log_length).getD r.toNat 0
          = mem.getD ((ABSOLUTE_POS_OF_LOG_AREA : Int)
              + (head_log_area_offset + r) % log_area_len).toNat 0) := by
  have h0 : 0 ≤ head % log_area_len := Int.emod_nonneg head (by omega)
  have hlt : head % log_area_len < log_area_len := Int.emod_lt_of_pos head hlal
  subst hhlo
  have hmain : relative_log_pos_to_log_area_offset r (head % log_area_len) log_area_len
      = (head % log_area_len + r) % log_area_len := by
    simp only [relative_log_pos_to_log_area_offset]
    split_ifs with hcase
    · have heq : head % log_area_len + r
          = (head % log_area_len + r - log_area_len) + 1 * log_area_len := by ring
      have h2 : (head % log_area_len + r) % log_area_len
          = (head % log_area_len + r - log_area_len) % log_area_len := by
        conv_lhs => rw [heq]
        rw [Int.add_mul_emod_self]
      have h3 : (head % log_area_len + r - log_area_len) % log_area_len
          = head % log_area_len + r - log_area_len :=
        Int.emod_eq_of_lt (by omega) (by omega)
      rw [h2, h3]
    · exact (Int.emod_eq_of_lt (by omega) (by omega)).symm
  refine ⟨hmain, fun hrlen => ?_⟩
  simp only [extract_log]
  have hridx : r.toNat < log_length.toNat := by omega
  rw [List.getD_eq_getElem _ _ (by rw [List.length_map, List.length_range]; exact hridx)]
  simp only [List.getElem_map, List.getElem_range]
  rw [Int.toNat_of_nonneg hr0, hmain]

/-- Witness for C6: log area length 3, head 4 (so head offset 1), relative
position 2, which wraps to physical offset 256. -/
theorem relative_log_pos_is_mod_and_extract_log_reads_there_witness :
    ((0 : Int) < 3 ∧ (1 : Int) = 4 % 3 ∧ (0 : Int) ≤ 2 ∧ (2 : Int) < 3)
    ∧ (relative_log_pos_to_log_area_offset 2 1 3 = (1 + 2) % 3
       ∧ ((2 : Int) < 3 →
           (extract_log wmemLogArea 3 4 3).getD (2 : Int).toNat 0
             = wmemLogArea.getD ((ABSOLUTE_POS_OF_LOG_AREA : Int) + (1 + 2) % 3).toNat 0)) :=
  ⟨⟨by decide, by decide, by decide, by decide⟩,
    relative_log_pos_is_mod_and_extract_log_reads_there 3 4 1 2 3 wmemLogArea
      (by decide) (by decide) (by decide) (by decide)⟩

theorem global_metadata_serialize_extracts (g : GlobalMetadata) :
    extract_bytes g.spec_serialize RELATIVE_POS_OF_GLOBAL_VERSION_NUMBER 8
        = spec_u64_to_le_bytes g.version_number
    ∧ extract_bytes g.spec_serialize RELATIVE_POS_OF_GLOBAL_LENGTH_OF_REGION_METADATA 8
        = spec_u64_to_le_bytes g.length_of_region_metadata
    ∧ extract_bytes g.spec_serialize RELATIVE_POS_OF_GLOBAL_PROGRAM_GUID 16
        = spec_u128_to_le_bytes g.program_guid := by
  simp only [GlobalMetadata.spec_serialize, spec_u64_to_le_bytes, spec_u128_to_le_bytes,
    RELATIVE_POS_OF_GLOBAL_VERSION_NUMBER, RELATIVE_POS_OF_GLOBAL_LENGTH_OF_REGION_METADATA,
    RELATIVE_POS_OF_GLOBAL_PROGRAM_GUID, List.append_assoc]
  refine ⟨?_, ?_, ?_⟩
  · rw [extract_bytes_front _ _ _ (by simp [toLeBytes_length])]
    exact extract_bytes_eq_self _ _ (toLeBytes_length _ _)
  · rw [extract_peel 8 _ _ _ _ (by norm_num)]
    norm_num
    rw [extract_bytes_front _ _ _ (by simp [toLeBytes_length])]
    exact extract_bytes_eq_self _ _ (toLeBytes_length _ _)
  · rw [extract_peel 8 _ _ _ _ (by norm_num)]
    norm_num
    rw [extract_peel 8 _ _ _ _ (by norm_num)]
    norm_num
    exact extract_bytes_eq_self _ _ (toLeBytes_length _ _)

theorem region_metadata_serialize_extracts (r : RegionMetadata) :
    extract_bytes r.spec_serialize RELATIVE_POS_OF_REGION_NUM_LOGS 4
        = spec_u32_to_le_bytes r.num_logs
    ∧ extract_bytes r.spec_serialize RELATIVE_POS_OF_REGION_WHICH_LOG 4
        = spec_u32_to_le_bytes r.which_log
    ∧ extract_bytes r.spec_serialize RELATIVE_POS_OF_REGION_PADDING 8
        = spec_u64_to_le_bytes r._padding
    ∧ extract_bytes r.spec_serialize RELATIVE_POS_OF_REGION_REGION_SIZE 8
        = spec_u64_to_le_bytes r.region_size
    ∧ extract_bytes r.spec_serialize RELATIVE_POS_OF_REGION_LENGTH_OF_LOG_AREA 8
        = spec_u64_to_le_bytes r.log_area_len
    ∧ extract_bytes r.spec_serialize RELATIVE_POS_OF_REGION_MULTILOG_ID 16
        = spec_u128_to_le_bytes r.multilog_id := by
  simp only [RegionMetadata.spec_serialize, spec_u32_to_le_bytes, spec_u64_to_le_bytes,
    spec_u128_to_le_bytes, RELATIVE_POS_OF_REGION_NUM_LOGS, RELATIVE_POS_OF_REGION_WHICH_LOG,
    RELATIVE_POS_OF_REGION_PADDING, RELATIVE_POS_OF_REGION_REGION_SIZE,
    RELATIVE_POS_OF_REGION_LENGTH_OF_LOG_AREA, RELATIVE_POS_OF_REGION_MULTILOG_ID,
    List.append_assoc]
  refine ⟨?_, ?_, ?_, ?_, ?_, ?_⟩
  · rw [extract_bytes_front _ _ _ (by simp [toLeBytes_length])]
    exact extract_bytes_eq_self _ _ (toLeBytes_length _ _)
  · rw [extract_peel 4 _ _ _ _ (by norm_num)]
    norm_num
    rw [extract_bytes_front _ _ _ (by simp [toLeBytes_length])]
    exact extract_bytes_eq_self _ _ (toLeBytes_length _ _)
  · rw [extract_peel 4 _ _ _ _ (by norm_num)]
    norm_num
    rw [extract_peel 4 _ _ _ _ (by norm_num)]
    norm_num
    rw [extract_bytes_front _ _ _ (by simp [toLeBytes_length])]
    exact extract_bytes_eq_self _ _ (toLeBytes_length _ _)
  · rw [extract_peel 4 _ _ _ _ (by norm_num)]
    norm_num
    rw [extract_peel 4 _ _ _ _ (by norm_num)]
    norm_num
    rw [extract_peel 8 _ _ _ _ (by norm_num)]
    norm_num
    rw [extract_bytes_front _ _ _ (by simp [toLeBytes_length])]
    exact extract_bytes_eq_self _ _ (toLeBytes_length _ _)
  · rw [extract_peel 4 _ _ _ _ (by norm_num)]
    norm_num
    rw [extract_peel 4 _ _ _ _ (by norm_num)]
    norm_num
    rw [extract_peel 8 _ _ _ _ (by norm_num)]
    norm_num
    rw [extract_peel 8 _ _ _ _ (by norm_num)]
    norm_num
    rw [extract_bytes_front _ _ _ (by simp [toLeBytes_length])]
    exact extract_bytes_eq_self _ _ (toLeBytes_length _ _)
  · rw [extract_peel 4 _ _ _ _ (by norm_num)]
    norm_num
    rw [extract_peel 4 _ _ _ _ (by norm_num)]
    norm_num
    rw [extract_peel 8 _ _ _ _ (by norm_num)]
    norm_num
    rw [extract_peel 8 _ _ _ _ (by norm_num)]
    norm_num
    rw [extract_peel 8 _ _ _ _ (by norm_num)]
    norm_num
    exact extract_bytes_eq_self _ _ (toLeBytes_length _ _)

theorem log_metadata_serialize_extracts (l : LogMetadata) :
    extract_bytes l.spec_serialize RELATIVE_POS_OF_LOG_LOG_LENGTH 8
        = spec_u64_to_le_bytes l.log_length
    ∧ extract_bytes l.spec_serialize RELATIVE_POS_OF_LOG_PADDING 8
        = spec_u64_to_le_bytes l._padding
    ∧ extract_bytes l.spec_serialize RELATIVE_POS_OF_LOG_HEAD 16
        = spec_u128_to_le_bytes l.head := by
  simp only [LogMetadata.spec_serialize, spec_u64_to_le_bytes, spec_u128_to_le_bytes,
    RELATIVE_POS_OF_LOG_LOG_LENGTH, RELATIVE_POS_OF_LOG_PADDING, RELATIVE_POS_OF_LOG_HEAD,
    List.append_assoc]
  refine ⟨?_, ?_, ?_⟩
  · rw [extract_bytes_front _ _ _ (by simp [toLeBytes_length])]
    exact extract_bytes_eq_self _ _ (toLeBytes_length _ _)
  · rw [extract_peel 8 _ _ _ _ (by norm_num)]
    norm_num
    rw [extract_bytes_front _ _ _ (by simp [toLeBytes_length])]
    exact extract_bytes_eq_self _ _ (toLeBytes_length _ _)
  · rw [extract_peel 8 _ _ _ _ (by norm_num)]
    norm_num
    rw [extract_peel 8 _ _ _ _ (by norm_num)]
    norm_num
    exact extract_bytes_eq_self _ _ (toLeBytes_length _ _)

/-- C7: for each record type, deserializing the serialization gives back
the record, the serialized length equals the declared length (32, 48 and 32
bytes), and every field sits little-endian at its declared relative
offset. -/
theorem serializable_records_round_trip
    (g : GlobalMetadata) (r : RegionMetadata) (l : LogMetadata)
    (hg1 : g.version_number < 2 ^ 64) (hg2 : g.length_of_region_metadata < 2 ^ 64)
    (hg3 : g.program_guid < 2 ^ 128)
    (hr1 : r.num_logs < 2 ^ 32) (hr2 : r.which_log < 2 ^ 32) (hr3 : r._padding < 2 ^ 64)
    (hr4 : r.region_size < 2 ^ 64) (hr5 : r.log_area_len < 2 ^ 64)
    (hr6 : r.multilog_id < 2 ^ 128)
    (hl1 : l.log_length < 2 ^ 64) (hl2 : l._padding < 2 ^ 64) (hl3 : l.head < 2 ^ 128) :
    (GlobalMetadata.spec_deserialize g.spec_serialize = g
     ∧ g.spec_serialize.length = GlobalMetadata.spec_serialized_len
     ∧ GlobalMetadata.spec_serialized_len = 32
     ∧ extract_bytes g.spec_serialize RELATIVE_POS_OF_GLOBAL_VERSION_NUMBER 8
         = spec_u64_to_le_bytes g.version_number
     ∧ extract_bytes g.spec_serialize RELATIVE_POS_OF_GLOBAL_LENGTH_OF_REGION_METADATA 8
         = spec_u64_to_le_bytes g.length_of_region_metadata
     ∧ extract_bytes g.spec_serialize RELATIVE_POS_OF_GLOBAL_PROGRAM_GUID 16
         = spec_u128_to_le_bytes g.program_guid)
    ∧ (RegionMetadata.spec_deserialize r.spec_serialize = r
       ∧ r.spec_serialize.length = RegionMetadata.spec_serialized_len
       ∧ RegionMetadata.spec_serialized_len = 48
       ∧ extract_bytes r.spec_serialize RELATIVE_POS_OF_REGION_NUM_LOGS 4
           = spec_u32_to_le_bytes r.num_logs
       ∧ extract_bytes r.spec_serialize RELATIVE_POS_OF_REGION_WHICH_LOG 4
           = spec_u32_to_le_bytes r.which_log
       ∧ extract_bytes r.spec_serialize RELATIVE_POS_OF_REGION_PADDING 8
           = spec_u64_to_le_bytes r._padding
       ∧ extract_bytes r.spec_serialize RELATIVE_POS_OF_REGION_REGION_SIZE 8
           = spec_u64_to_le_bytes r.region_size
       ∧ extract_bytes r.spec_serialize RELATIVE_POS_OF_REGION_LENGTH_OF_LOG_AREA 8
           = spec_u64_to_le_bytes r.log_area_len
       ∧ extract_bytes r.spec_serialize RELATIVE_POS_OF_REGION_MULTILOG_ID 16
           = spec_u128_to_le_bytes r.multilog_id)
    ∧ (LogMetadata.spec_deserialize l.spec_serialize = l
       ∧ l.spec_serialize.length = LogMetadata.spec_serialized_len
       ∧ LogMetadata.spec_serialized_len = 32
       ∧ extract_bytes l.spec_serialize RELATIVE_POS_OF_LOG_LOG_LENGTH 8
           = spec_u64_to_le_bytes l.log_length
       ∧ extract_bytes l.spec_serialize RELATIVE_POS_OF_LOG_PADDING 8
           = spec_u64_to_le_bytes l._padding
       ∧ extract_bytes l.spec_serialize RELATIVE_POS_OF_LOG_HEAD 16
           = spec_u128_to_le_bytes l.head) := by
  obtain ⟨eg1, eg2, eg3⟩ := global_metadata_serialize_extracts g
  obtain ⟨er1, er2, er3, er4, er5, er6⟩ := region_metadata_serialize_extracts r
  obtain ⟨el1, el2, el3⟩ := log_metadata_serialize_extracts l
  have p64 : (256 : Nat) ^ 8 = 2 ^ 64 := by norm_num
  have p32 : (256 : Nat) ^ 4 = 2 ^ 32 := by norm_num
  have p128 : (256 : Nat) ^ 16 = 2 ^ 128 := by norm_num
  refine ⟨⟨?_, ?_, rfl, eg1, eg2, eg3⟩, ⟨?_, ?_, rfl, er1, er2, er3, er4, er5, er6⟩,
    ⟨?_, ?_, rfl, el1, el2, el3⟩⟩
  · simp only [GlobalMetadata.spec_deserialize, eg1, eg2, eg3, spec_u64_from_le_bytes,
      spec_u128_from_le_bytes, spec_u64_to_le_bytes, spec_u128_to_le_bytes]
    rw [fromLeBytes_toLeBytes_of_lt (by rw [p64]; exact hg1),
      fromLeBytes_toLeBytes_of_lt (by rw [p64]; exact hg2),
      fromLeBytes_toLeBytes_of_lt (by rw [p128]; exact hg3)]
  · simp [GlobalMetadata.spec_serialize, GlobalMetadata.spec_serialized_len,
      LENGTH_OF_GLOBAL_METADATA, length_spec_u64_to_le_bytes, length_spec_u128_to_le_bytes]
  · simp only [RegionMetadata.spec_deserialize, er1, er2, er3, er4, er5, er6,
      spec_u32_from_le_bytes, spec_u64_from_le_bytes, spec_u128_from_le_bytes,
      spec_u32_to_le_bytes, spec_u64_to_le_bytes, spec_u128_to_le_bytes]
    rw [fromLeBytes_toLeBytes_of_lt (by rw [p32]; exact hr1),
      fromLeBytes_toLeBytes_of_lt (by rw [p32]; exact hr2),
      fromLeBytes_toLeBytes_of_lt (by rw [p64]; exact hr3),
      fromLeBytes_toLeBytes_of_lt (by rw [p64]; exact hr4),
      fromLeBytes_toLeBytes_of_lt (by rw [p64]; exact hr5),
      fromLeBytes_toLeBytes_of_lt (by rw [p128]; exact hr6)]
  · simp [RegionMetadata.spec_serialize, RegionMetadata.spec_serialized_len,
      LENGTH_OF_REGION_METADATA, length_spec_u32_to_le_bytes, length_spec_u64_to_le_bytes,
      length_spec_u128_to_le_bytes]
  · simp only [LogMetadata.spec_deserialize, el1, el2, el3, spec_u64_from_le_bytes,
      spec_u128_from_le_bytes, spec_u64_to_le_bytes, spec_u128_to_le_bytes]
    rw [fromLeBytes_toLeBytes_of_lt (by rw [p64]; exact hl1),
      fromLeBytes_toLeBytes_of_lt (by rw [p64]; exact hl2),
      fromLeBytes_toLeBytes_of_lt (by rw [p128]; exact hl3)]
  · simp [LogMetadata.spec_serialize, LogMetadata.spec_serialized_len,
      LENGTH_OF_LOG_METADATA, length_spec_u64_to_le_bytes, length_spec_u128_to_le_bytes]

/-- Witness for C7: concrete records whose fields are in range round-trip
through serialization. -/
theorem serializable_records_round_trip_witness :
    ((1 : Nat) < 2 ^ 64 ∧ (48 : Nat) < 2 ^ 64 ∧ MULTILOG_PROGRAM_GUID < 2 ^ 128
     ∧ (3 : Nat) < 2 ^ 32 ∧ (2 : Nat) < 2 ^ 32 ∧ (0 : Nat) < 2 ^ 64
     ∧ (4096 : Nat) < 2 ^ 64 ∧ (3840 : Nat) < 2 ^ 64 ∧ (91 : Nat) < 2 ^ 128
     ∧ (100 : Nat) < 2 ^ 64 ∧ (0 : Nat) < 2 ^ 64 ∧ (17 : Nat) < 2 ^ 128)
    ∧ GlobalMetadata.spec_deserialize
        (GlobalMetadata.spec_serialize ⟨1, 48, MULTILOG_PROGRAM_GUID⟩)
        = ⟨1, 48, MULTILOG_PROGRAM_GUID⟩
    ∧ RegionMetadata.spec_deserialize
        (RegionMetadata.spec_serialize ⟨3, 2, 0, 4096, 3840, 91⟩) = ⟨3, 2, 0, 4096, 3840, 91⟩
    ∧ LogMetadata.spec_deserialize (LogMetadata.spec_serialize ⟨100, 0, 17⟩) = ⟨100, 0, 17⟩ := by
  have h := serializable_records_round_trip ⟨1, 48, MULTILOG_PROGRAM_GUID⟩
    ⟨3, 2, 0, 4096, 3840, 91⟩ ⟨100, 0, 17⟩
    (by norm_num) (by norm_num) (by norm_num [MULTILOG_PROGRAM_GUID]) (by norm_num)
    (by norm_num) (by norm_num) (by norm_num) (by norm_num) (by norm_num) (by norm_num)
    (by norm_num) (by norm_num)
  exact ⟨⟨by norm_num, by norm_num, by norm_num [MULTILOG_PROGRAM_GUID], by norm_num,
    by norm_num, by norm_num, by norm_num, by norm_num, by norm_num, by norm_num,
    by norm_num, by norm_num⟩, h.1.1, h.2.1.1, h.2.2.1⟩

/-! ### Congruence of recovery in the region bytes it actually reads -/

theorem getElem?_congr_of_getD {m1 m2 : List Nat} (hlen : m1.length = m2.length) {i : Nat}
    (h : m1.getD i 0 = m2.getD i 0) : m1[i]? = m2[i]? := by
  by_cases hi : i < m1.length
  · rw [List.getElem?_eq_getElem hi, List.getElem?_eq_getElem (by omega : i < m2.length)]
    rw [List.getD_eq_getElem _ _ hi, List.getD_eq_getElem _ _ (by omega : i < m2.length)] at h
    exact congrArg some h
  · rw [List.getElem?_eq_none (by omega), List.getElem?_eq_none (by omega)]

theorem extract_bytes_congr {m1 m2 : List Nat} (hlen : m1.length = m2.length) (p n : Nat)
    (h : ∀ i, p ≤ i → i < p + n → m1.getD i 0 = m2.getD i 0) :
    extract_bytes m1 p n = extract_bytes m2 p n := by
  apply List.ext_getElem?
  intro k
  rw [getElem?_extract_bytes, getElem?_extract_bytes]
  split_ifs with hk
  · exact getElem?_congr_of_getD hlen (h (p + k) (by omega) (by omega))
  · rfl

theorem extract_log_congr {m1 m2 : List Nat} (log_area_len head log_length : Int)
    (hlen : m1.length = m2.length)
    (hag : ∀ i : Nat, ABSOLUTE_POS_OF_LOG_AREA ≤ i → m1.getD i 0 = m2.getD i 0)
    (hlal : 0 < log_area_len) :
    extract_log m1 log_area_len head log_length
      = extract_log m2 log_area_len head log_length := by
  simp only [extract_log]
  apply List.map_congr_left
  intro a ha
  have h0 : 0 ≤ head % log_area_len := Int.emod_nonneg head (by omega)
  have hrel : 0 ≤ relative_log_pos_to_log_area_offset (a : Int) (head % log_area_len)
      log_area_len := by
    simp only [relative_log_pos_to_log_area_offset]
    split_ifs with hcase <;> omega
  apply hag
  simp only [ABSOLUTE_POS_OF_LOG_AREA]
  omega

set_option maxHeartbeats 1000000 in
/-- Congruence of single-region recovery: the result depends only on the
bytes the recovery function reads, namely the metadata in the first 96
bytes, the active log-metadata copy with its CRC, and the log area at 184
and beyond (in fact 256 and beyond). -/
theorem recover_region_congr
    (crcG : GlobalMetadata → Nat) (crcRM : RegionMetadata → Nat) (crcL : LogMetadata → Nat)
    (multilog_id : Nat) (num_logs which_log : Int) (cdb : Bool) (m1 m2 : List Nat)
    (hlen : m1.length = m2.length)
    (hag : ∀ i : Nat,
      (i < 96 ∨ (get_log_metadata_pos cdb ≤ i ∧ i < get_log_metadata_pos cdb + 40) ∨ 184 ≤ i) →
      m1.getD i 0 = m2.getD i 0) :
    recover_abstract_log_from_region_given_cdb crcG crcRM crcL m1 multilog_id num_logs
        which_log cdb
      = recover_abstract_log_from_region_given_cdb crcG crcRM crcL m2 multilog_id num_logs
        which_log cdb := by
  have hpos : get_log_metadata_pos cdb = if cdb then 144 else 104 := by
    simp [get_log_metadata_pos, ABSOLUTE_POS_OF_LOG_METADATA_FOR_CDB_TRUE,
      ABSOLUTE_POS_OF_LOG_METADATA_FOR_CDB_FALSE]
  have hGM : deserialize_global_metadata m1 = deserialize_global_metadata m2 := by
    unfold deserialize_global_metadata extract_global_metadata
    rw [extract_bytes_congr hlen _ _ (fun i h1 h2 => hag i (Or.inl (by
      simp only [ABSOLUTE_POS_OF_GLOBAL_METADATA, LENGTH_OF_GLOBAL_METADATA] at h1 h2
      omega)))]
  have hGC : deserialize_global_crc m1 = deserialize_global_crc m2 := by
    unfold deserialize_global_crc extract_global_crc
    rw [extract_bytes_congr hlen _ _ (fun i h1 h2 => hag i (Or.inl (by
      simp only [ABSOLUTE_POS_OF_GLOBAL_CRC, CRC_SIZE] at h1 h2
      omega)))]
  have hRM : deserialize_region_metadata m1 = deserialize_region_metadata m2 := by
    unfold deserialize_region_metadata extract_region_metadata
    rw [extract_bytes_congr hlen _ _ (fun i h1 h2 => hag i (Or.inl (by
      simp only [ABSOLUTE_POS_OF_REGION_METADATA, LENGTH_OF_REGION_METADATA] at h1 h2
      omega)))]
  have hRC : deserialize_region_crc m1 = deserialize_region_crc m2 := by
    unfold deserialize_region_crc extract_region_crc
    rw [extract_bytes_congr hlen _ _ (fun i h1 h2 => hag i (Or.inl (by
      simp only [ABSOLUTE_POS_OF_REGION_CRC, CRC_SIZE] at h1 h2
      omega)))]
  have hLM : deserialize_log_metadata m1 cdb = deserialize_log_metadata m2 cdb := by
    unfold deserialize_log_metadata extract_log_metadata
    rw [extract_bytes_congr hlen _ _ (fun i h1 h2 => hag i (Or.inr (Or.inl (by
      simp only [LENGTH_OF_LOG_METADATA] at h2
      omega))))]
  have hLC : deserialize_log_crc m1 cdb = deserialize_log_crc m2 cdb := by
    unfold deserialize_log_crc extract_log_crc
    rw [extract_bytes_congr hlen _ _ (fun i h1 h2 => hag i (Or.inr (Or.inl (by
      rw [hpos]
      simp only [ABSOLUTE_POS_OF_LOG_CRC_FOR_CDB_TRUE, ABSOLUTE_POS_OF_LOG_CRC_FOR_CDB_FALSE,
        CRC_SIZE] at h1 h2
      split_ifs at h1 h2 ⊢ <;> omega))))]
  simp only [recover_abstract_log_from_region_given_cdb, hGM, hGC, hRM, hRC, hLM, hLC, hlen]
  split_ifs with h1 h2 h3 h4 h5 h6 h7 h8
  all_goals try rfl
  unfold recover_abstract_log_from_region_given_metadata
  have hlal : 0 < ((deserialize_region_metadata m2).log_area_len : Int) := by
    simp only [MIN_LOG_AREA_SIZE] at h7
    push_neg at h7
    omega
  rw [extract_log_congr _ _ _ hlen
    (fun i hi => hag i (Or.inr (Or.inr (by
      simp only [ABSOLUTE_POS_OF_LOG_AREA] at hi
      omega)))) hlal]

/-- C1: recovery of a region under the current CDB never depends on the
inactive log-metadata copy and its CRC: two region contents of equal length
that agree everywhere outside bytes 104..144 (when cdb is true) or bytes
144..184 (when cdb is false) recover identically. -/
theorem recover_region_ignores_inactive_copy
    (crcG : GlobalMetadata → Nat) (crcRM : RegionMetadata → Nat) (crcL : LogMetadata → Nat)
    (multilog_id : Nat) (num_logs which_log : Int) (cdb : Bool) (mem1 mem2 : List Nat)
    (hlen : mem1.length = mem2.length)
    (hag : ∀ i : Nat,
      ¬ (get_log_metadata_pos (!cdb) ≤ i
          ∧ i < get_log_metadata_pos (!cdb) + LENGTH_OF_LOG_METADATA + CRC_SIZE) →
      mem1.getD i 0 = mem2.getD i 0) :
    recover_abstract_log_from_region_given_cdb crcG crcRM crcL mem1 multilog_id num_logs
        which_log cdb
      = recover_abstract_log_from_region_given_cdb crcG crcRM crcL mem2 multilog_id num_logs
        which_log cdb := by
  apply recover_region_congr crcG crcRM crcL multilog_id num_logs which_log cdb mem1 mem2 hlen
  intro i hi
  apply hag
  cases cdb <;>
    simp [get_log_metadata_pos,
      ABSOLUTE_POS_OF_LOG_METADATA_FOR_CDB_TRUE, ABSOLUTE_POS_OF_LOG_METADATA_FOR_CDB_FALSE,
      LENGTH_OF_LOG_METADATA, CRC_SIZE] at hi ⊢ <;>
    omega

/-- Witness for C1: changing byte 150, inside the inactive (CDB true) copy,
does not change recovery under CDB false. -/
theorem recover_region_ignores_inactive_copy_witness :
    wregion.length = wregionB.length
    ∧ (∀ i : Nat,
        ¬ (get_log_metadata_pos (!false) ≤ i
            ∧ i < get_log_metadata_pos (!false) + LENGTH_OF_LOG_METADATA + CRC_SIZE) →
        wregion.getD i 0 = wregionB.getD i 0)
    ∧ recover_abstract_log_from_region_given_cdb czG czRM czL wregion 0 1 0 false
        = recover_abstract_log_from_region_given_cdb czG czRM czL wregionB 0 1 0 false := by
  have hlen : wregion.length = wregionB.length := by simp [wregionB]
  have hag : ∀ i : Nat,
      ¬ (get_log_metadata_pos (!false) ≤ i
          ∧ i < get_log_metadata_pos (!false) + LENGTH_OF_LOG_METADATA + CRC_SIZE) →
      wregion.getD i 0 = wregionB.getD i 0 := by
    intro i hi
    have hne : 150 ≠ i := by
      simp only [Bool.not_false, get_log_metadata_pos, if_true,
        ABSOLUTE_POS_OF_LOG_METADATA_FOR_CDB_TRUE, LENGTH_OF_LOG_METADATA, CRC_SIZE] at hi
      omega
    show wregion.getD i 0 = (wregion.set 150 7).getD i 0
    rw [List.getD_eq_getElem?_getD, List.getD_eq_getElem?_getD, List.getElem?_set_ne hne]
  exact ⟨hlen, hag,
    recover_region_ignores_inactive_copy czG czRM czL 0 1 0 false wregion wregionB hlen hag⟩

/-- C2: recovery of a whole multilog depends on the CDB bytes (offsets
96..104) of region 0 only; changing the CDB bytes of any region with index
at least 1 leaves the recovered state unchanged. -/
theorem recover_all_ignores_nonzero_region_cdb
    (crcG : GlobalMetadata → Nat) (crcRM : RegionMetadata → Nat) (crcL : LogMetadata → Nat)
    (multilog_id : Nat) (mems1 mems2 : List (List Nat))
    (hlen : mems1.length = mems2.length)
    (hreg : ∀ k, k < mems1.length →
      (mems1.getD k []).length = (mems2.getD k []).length
      ∧ ∀ i : Nat,
          (1 ≤ k → ¬ (ABSOLUTE_POS_OF_LOG_CDB ≤ i ∧ i < ABSOLUTE_POS_OF_LOG_CDB + CRC_SIZE)) →
          (mems1.getD k []).getD i 0 = (mems2.getD k []).getD i 0) :
    recover_all crcG crcRM crcL mems1 multilog_id
      = recover_all crcG crcRM crcL mems2 multilog_id := by
  by_cases hn : mems1.length < 1 ∨ mems1.length > U32_MAX
  · unfold recover_all
    rw [if_pos hn, if_pos (by rw [← hlen]; exact hn)]
  · have hn2 : ¬ (mems2.length < 1 ∨ mems2.length > U32_MAX) := by rw [← hlen]; exact hn
    have h0 : mems1.getD 0 [] = mems2.getD 0 [] := by
      obtain ⟨hl0, hag0⟩ := hreg 0 (by omega)
      apply List.ext_getElem?
      intro k
      exact getElem?_congr_of_getD hl0 (hag0 k (by omega))
    have hgiven : ∀ cdb, recover_given_cdb crcG crcRM crcL mems1 multilog_id cdb
        = recover_given_cdb crcG crcRM crcL mems2 multilog_id cdb := by
      intro cdb
      have helem : ∀ i : Nat, i < mems1.length →
          recover_abstract_log_from_region_given_cdb crcG crcRM crcL (mems1.getD i [])
            multilog_id (mems1.length : Int) (i : Int) cdb
          = recover_abstract_log_from_region_given_cdb crcG crcRM crcL (mems2.getD i [])
            multilog_id (mems2.length : Int) (i : Int) cdb := by
        intro i h1
        rw [hlen]
        obtain ⟨hli, hagi⟩ := hreg i h1
        apply recover_region_congr _ _ _ _ _ _ _ _ _ hli
        intro j hj
        apply hagi
        intro _
        simp only [ABSOLUTE_POS_OF_LOG_CDB, CRC_SIZE]
        rcases hj with hj | hj | hj
        · omega
        · have : get_log_metadata_pos cdb = 144 ∨ get_log_metadata_pos cdb = 104 := by
            cases cdb <;> simp [get_log_metadata_pos,
              ABSOLUTE_POS_OF_LOG_METADATA_FOR_CDB_TRUE,
              ABSOLUTE_POS_OF_LOG_METADATA_FOR_CDB_FALSE]
          omega
        · omega
      unfold recover_given_cdb
      have hmap : mems1.mapIdx (fun idx c =>
            recover_abstract_log_from_region_given_cdb crcG crcRM crcL c multilog_id
              (mems1.length : Int) (idx : Int) cdb)
          = mems2.mapIdx (fun idx c =>
            recover_abstract_log_from_region_given_cdb crcG crcRM crcL c multilog_id
              (mems2.length : Int) (idx : Int) cdb) := by
        apply List.ext_getElem (by simp [hlen])
        intro i hi1 hi2
        simp only [List.getElem_mapIdx]
        have hb1 : i < mems1.length := by simpa using hi1
        have hb2 : i < mems2.length := by simpa using hi2
        rw [← List.getD_eq_getElem mems1 [] hb1, ← List.getD_eq_getElem mems2 [] hb2]
        exact helem i hb1
      rw [hmap]
    unfold recover_all
    rw [if_neg hn, if_neg hn2, h0]
    cases recover_cdb crcG (mems2.getD 0 []) with
    | none => rfl
    | some cdb => exact hgiven cdb

/-- Witness for C2: changing byte 100, inside the CDB field of region 1,
does not change multilog recovery. -/
theorem recover_all_ignores_nonzero_region_cdb_witness :
    ([wregion, wregion] : List (List Nat)).length = ([wregion, wregionC] : List (List Nat)).length
    ∧ (∀ k, k < ([wregion, wregion] : List (List Nat)).length →
        (([wregion, wregion] : List (List Nat)).getD k []).length
            = (([wregion, wregionC] : List (List Nat)).getD k []).length
        ∧ ∀ i : Nat,
            (1 ≤ k → ¬ (ABSOLUTE_POS_OF_LOG_CDB ≤ i ∧ i < ABSOLUTE_POS_OF_LOG_CDB + CRC_SIZE)) →
            (([wregion, wregion] : List (List Nat)).getD k []).getD i 0
              = (([wregion, wregionC] : List (List Nat)).getD k []).getD i 0)
    ∧ recover_all czG czRM czL [wregion, wregion] 0
        = recover_all czG czRM czL [wregion, wregionC] 0 := by
  have hreg : ∀ k, k < ([wregion, wregion] : List (List Nat)).length →
      (([wregion, wregion] : List (List Nat)).getD k []).length
          = (([wregion, wregionC] : List (List Nat)).getD k []).length
      ∧ ∀ i : Nat,
          (1 ≤ k → ¬ (ABSOLUTE_POS_OF_LOG_CDB ≤ i ∧ i < ABSOLUTE_POS_OF_LOG_CDB + CRC_SIZE)) →
          (([wregion, wregion] : List (List Nat)).getD k []).getD i 0
            = (([wregion, wregionC] : List (List Nat)).getD k []).getD i 0 := by
    intro k hk
    match k with
    | 0 => exact ⟨rfl, fun i _ => rfl⟩
    | 1 =>
        refine ⟨by simp [wregionC], fun i hi => ?_⟩
        have hne : 100 ≠ i := by
          have := hi (by omega)
          simp only [ABSOLUTE_POS_OF_LOG_CDB, CRC_SIZE] at this
          omega
        show wregion.getD i 0 = (wregion.set 100 5).getD i 0
        rw [List.getD_eq_getElem?_getD, List.getD_eq_getElem?_getD, List.getElem?_set_ne hne]
    | k + 2 => exact absurd hk (by simp)
  exact ⟨rfl, hreg,
    recover_all_ignores_nonzero_region_cdb czG czRM czL 0 [wregion, wregion]
      [wregion, wregionC] rfl hreg⟩

theorem option_getD_drop {o : Option AbstractLogState} (hs : o.isSome = true)
    (hp : ∀ s, o = some s → s.pending = []) :
    o.getD emptyLogState = AbstractLogState.drop_pending_appends (o.getD emptyLogState) := by
  obtain ⟨s, rfl⟩ := Option.isSome_iff_exists.mp hs
  have hsp := hp s rfl
  obtain ⟨sh, sl, sp, sc⟩ := s
  simp only at hsp
  simp [AbstractLogState.drop_pending_appends, hsp]

theorem recover_region_some_pending_empty
    {crcG : GlobalMetadata → Nat} {crcRM : RegionMetadata → Nat} {crcL : LogMetadata → Nat}
    {mem : List Nat} {multilog_id : Nat} {num_logs which_log : Int} {cdb : Bool}
    {s : AbstractLogState}
    (h : recover_abstract_log_from_region_given_cdb crcG crcRM crcL mem multilog_id num_logs
        which_log cdb = some s) :
    s.pending = [] := by
  unfold recover_abstract_log_from_region_given_cdb
    recover_abstract_log_from_region_given_metadata at h
  split_ifs at h
  obtain rfl : _ = s := Option.some.inj h
  rfl

/-- C9: whenever recover_all succeeds, the recovered multilog state equals
itself with all pending appends dropped: every recovered log has an empty
pending sequence, so recovery is a fixed point. -/
theorem recover_all_state_is_drop_pending_appends
    (crcG : GlobalMetadata → Nat) (crcRM : RegionMetadata → Nat) (crcL : LogMetadata → Nat)
    (mems : List (List Nat)) (multilog_id : Nat) (state : AbstractMultiLogState)
    (h : recover_all crcG crcRM crcL mems multilog_id = some state) :
    state = state.drop_pending_appends := by
  unfold recover_all at h
  split_ifs at h
  cases hc : recover_cdb crcG (mems.getD 0 []) with
  | none => rw [hc] at h; cases h
  | some cdb =>
      rw [hc] at h
      dsimp only at h
      unfold recover_given_cdb at h
      dsimp only at h
      split_ifs at h with hall
      obtain rfl : _ = state := Option.some.inj h
      unfold AbstractMultiLogState.drop_pending_appends
      congr 1
      rw [List.map_map]
      apply List.ext_getElem (by simp)
      intro i h1 h2
      simp only [List.getElem_map, List.getElem_mapIdx, Function.comp]
      have hb : i < mems.length := by simpa using h1
      have hlenm : i < (mems.mapIdx (fun idx c =>
          recover_abstract_log_from_region_given_cdb crcG crcRM crcL c multilog_id
            (mems.length : Int) (idx : Int) cdb)).length := by
        simpa using hb
      apply option_getD_drop
      · have hsome0 := List.all_eq_true.mp hall _ (List.getElem_mem hlenm)
        rw [List.getElem_mapIdx] at hsome0
        exact hsome0
      · intro s hs
        exact recover_region_some_pending_empty hs

/-- Witness for C9: the witness region recovers to a concrete state with no
pending bytes, and that state is a fixed point of drop_pending_appends. -/
theorem recover_all_state_is_drop_pending_appends_witness :
    recover_all czG czRM czL [wregion] 0
        = some { states := [{ head := 0, log := [], pending := [], capacity := 1 }] }
    ∧ ({ states := [{ head := 0, log := [], pending := [], capacity := 1 }]
          } : AbstractMultiLogState)
        = ({ states := [{ head := 0, log := [], pending := [], capacity := 1 }]
          } : AbstractMultiLogState).drop_pending_appends := by
  have h : recover_all czG czRM czL [wregion] 0
      = some { states := [{ head := 0, log := [], pending := [], capacity := 1 }] } := by
    decide
  exact ⟨h, recover_all_state_is_drop_pending_appends czG czRM czL [wregion] 0 _ h⟩

theorem srecover_some_conditions
    {crcG : GlobalMetadata → Nat} {crcR : SRegionMetadata → Nat} {crcL : LogMetadata → Nat}
    {mem : List Nat} {log_id : Nat} {cdb : Bool}
    (h : (srecover_given_cdb crcG crcR crcL mem log_id cdb).isSome) :
    ¬ mem.length < ABSOLUTE_POS_OF_LOG_AREA + MIN_LOG_AREA_SIZE
    ∧ deserialize_global_crc mem = crcG (deserialize_global_metadata mem)
    ∧ (deserialize_global_metadata mem).program_guid = LOG_PROGRAM_GUID
    ∧ (deserialize_global_metadata mem).version_number = 1
    ∧ (deserialize_global_metadata mem).length_of_region_metadata = LENGTH_OF_REGION_METADATA
    ∧ deserialize_region_crc mem = crcR (sdeserialize_region_metadata mem)
    ∧ (sdeserialize_region_metadata mem).region_size = mem.length
    ∧ (sdeserialize_region_metadata mem).log_id = log_id
    ∧ ¬ (sdeserialize_region_metadata mem).log_area_len < MIN_LOG_AREA_SIZE
    ∧ ¬ mem.length < ABSOLUTE_POS_OF_LOG_AREA + (sdeserialize_region_metadata mem).log_area_len
    ∧ deserialize_log_crc mem cdb = crcL (deserialize_log_metadata mem cdb)
    ∧ (deserialize_log_metadata mem cdb).log_length
        ≤ (sdeserialize_region_metadata mem).log_area_len
    ∧ (deserialize_log_metadata mem cdb).head + (deserialize_log_metadata mem cdb).log_length
        ≤ U128_MAX := by
  unfold srecover_given_cdb recover_abstract_log_from_region_given_metadata at h
  split_ifs at h with h1 h2 h3 h4 h5 h6 h7 h8 h9 <;> try simp at h
  push_neg at h2 h3 h5 h6 h8
  push_neg at h7 h9
  obtain ⟨c7a, c7b, c7c, c7d⟩ := h7
  obtain ⟨c9a, c9b⟩ := h9
  exact ⟨h1, h2, h3, h4, h5, h6, c7a, c7b, by omega, by omega, h8,
    by omega, by omega⟩

/-- C3: for a region with no outstanding writes whose committed contents
are mem, any read_log_variables outcome that is an error other than
CRCMismatch implies the committed contents are unrecoverable under that
cdb and log id, and a CRCMismatch outcome on recoverable contents implies
the device is not impervious to corruption.  The hypotheses are the read
model of the trusted layer: an impervious device reads exactly the
committed values (himp), and the CRC axiom that a matching check over a
region whose stored CRC matches its metadata proves the read was
uncorrupted (hg, hr, hl). -/
theorem read_log_variables_error_spec
    (crcG : GlobalMetadata → Nat) (crcR : SRegionMetadata → Nat) (crcL : LogMetadata → Nat)
    (mem : List Nat) (log_id : Nat) (cdb : Bool) (impervious : Bool) (rd : Readout)
    (himp : impervious = true → rd = trueReadout mem cdb)
    (hg : deserialize_global_crc mem = crcG (deserialize_global_metadata mem) →
          crcG rd.gm = rd.gcrc → rd.gm = deserialize_global_metadata mem)
    (hr : deserialize_region_crc mem = crcR (sdeserialize_region_metadata mem) →
          crcR rd.rm = rd.rcrc → rd.rm = sdeserialize_region_metadata mem)
    (hl : deserialize_log_crc mem cdb = crcL (deserialize_log_metadata mem cdb) →
          crcL rd.lm = rd.lcrc → rd.lm = deserialize_log_metadata mem cdb) :
    (∀ e, read_log_variables crcG crcR crcL mem log_id cdb rd = .error e →
        e ≠ LogErr.CRCMismatch → srecover_given_cdb crcG crcR crcL mem log_id cdb = none)
    ∧ (read_log_variables crcG crcR crcL mem log_id cdb rd = .error LogErr.CRCMismatch →
        (srecover_given_cdb crcG crcR crcL mem log_id cdb).isSome → impervious = false) := by
  by_cases hsome : (srecover_given_cdb crcG crcR crcL mem log_id cdb).isSome
  case neg =>
    have hnone : srecover_given_cdb crcG crcR crcL mem log_id cdb = none := by
      cases hcase : srecover_given_cdb crcG crcR crcL mem log_id cdb with
      | none => rfl
      | some s => rw [hcase] at hsome; simp at hsome
    exact ⟨fun _ _ _ => hnone, fun _ hs => absurd hs hsome⟩
  case pos =>
    obtain ⟨c1, c2, c3, c4, c5, c6, c7a, c7b, c7c, c7d, c8, c9a, c9b⟩ :=
      srecover_some_conditions hsome
    simp only [ABSOLUTE_POS_OF_LOG_AREA, MIN_LOG_AREA_SIZE] at c1 c7c c7d
    by_cases k1 : crcG rd.gm = rd.gcrc
    · have e1 : rd.gm = deserialize_global_metadata mem := hg c2 k1
      have g3 : ¬ rd.gm.program_guid ≠ LOG_PROGRAM_GUID := not_not_intro (by rw [e1]; exact c3)
      have g4 : ¬ rd.gm.version_number ≠ LOG_PROGRAM_VERSION_NUMBER :=
        not_not_intro (by rw [e1]; exact c4)
      have g5 : ¬ rd.gm.length_of_region_metadata ≠ LENGTH_OF_REGION_METADATA :=
        not_not_intro (by rw [e1]; exact c5)
      by_cases k2 : crcR rd.rm = rd.rcrc
      · have e2 : rd.rm = sdeserialize_region_metadata mem := hr c6 k2
        have g7 : ¬ rd.rm.region_size ≠ mem.length := not_not_intro (by rw [e2]; exact c7a)
        have g8 : ¬ rd.rm.log_id ≠ log_id := not_not_intro (by rw [e2]; exact c7b)
        have g9 : ¬ rd.rm.log_area_len > mem.length := by rw [e2]; omega
        have g10 : ¬ mem.length - rd.rm.log_area_len < ABSOLUTE_POS_OF_LOG_AREA := by
          rw [e2]; simp only [ABSOLUTE_POS_OF_LOG_AREA]; omega
        have g11 : ¬ rd.rm.log_area_len < MIN_LOG_AREA_SIZE := by
          rw [e2]; simp only [MIN_LOG_AREA_SIZE]; omega
        by_cases k3 : crcL rd.lm = rd.lcrc
        · have e3 : rd.lm = deserialize_log_metadata mem cdb := hl c8 k3
          have g13 : ¬ rd.lm.log_length > rd.rm.log_area_len := by rw [e2, e3]; omega
          have g14 : ¬ rd.lm.log_length > U128_MAX - rd.lm.head := by rw [e3]; omega
          have hok : read_log_variables crcG crcR crcL mem log_id cdb rd = .ok
              { log_area_len := rd.rm.log_area_len
                head := rd.lm.head
                head_log_area_offset := rd.lm.head % rd.rm.log_area_len
                log_length := rd.lm.log_length
                log_plus_pending_length := rd.lm.log_length } := by
            unfold read_log_variables
            rw [if_neg (by simp only [ABSOLUTE_POS_OF_LOG_AREA, MIN_LOG_AREA_SIZE]; omega),
              if_neg (not_not_intro k1), if_neg g3, if_neg g4, if_neg g5,
              if_neg (not_not_intro k2), if_neg g7, if_neg g8, if_neg g9, if_neg g10,
              if_neg g11, if_neg (not_not_intro k3), if_neg g13, if_neg g14]
          refine ⟨fun e he _ => ?_, fun hcrc _ => ?_⟩
          · rw [hok] at he; cases he
          · rw [hok] at hcrc; cases hcrc
        · have hcm : read_log_variables crcG crcR crcL mem log_id cdb rd
              = .error LogErr.CRCMismatch := by
            unfold read_log_variables
            rw [if_neg (by simp only [ABSOLUTE_POS_OF_LOG_AREA, MIN_LOG_AREA_SIZE]; omega),
              if_neg (not_not_intro k1), if_neg g3, if_neg g4, if_neg g5,
              if_neg (not_not_intro k2), if_neg g7, if_neg g8, if_neg g9, if_neg g10,
              if_neg g11, if_pos k3]
          refine ⟨fun e he hne => ?_, fun _ _ => ?_⟩
          · rw [hcm] at he
            injection he with he2
            exact absurd he2.symm hne
          · cases himpb : impervious with
            | false => rfl
            | true =>
                exfalso
                have hrd := himp himpb
                exact k3 (by rw [hrd]; exact c8.symm)
      · have hcm : read_log_variables crcG crcR crcL mem log_id cdb rd
            = .error LogErr.CRCMismatch := by
          unfold read_log_variables
          rw [if_neg (by simp only [ABSOLUTE_POS_OF_LOG_AREA, MIN_LOG_AREA_SIZE]; omega),
            if_neg (not_not_intro k1), if_neg g3, if_neg g4, if_neg g5, if_pos k2]
        refine ⟨fun e he hne => ?_, fun _ _ => ?_⟩
        · rw [hcm] at he
          injection he with he2
          exact absurd he2.symm hne
        · cases himpb : impervious with
          | false => rfl
          | true =>
              exfalso
              have hrd := himp himpb
              exact k2 (by rw [hrd]; exact c6.symm)
    · have hcm : read_log_variables crcG crcR crcL mem log_id cdb rd
          = .error LogErr.CRCMismatch := by
        unfold read_log_variables
        rw [if_neg (by simp only [ABSOLUTE_POS_OF_LOG_AREA, MIN_LOG_AREA_SIZE]; omega),
          if_pos k1]
      refine ⟨fun e he hne => ?_, fun _ _ => ?_⟩
      · rw [hcm] at he
        injection he with he2
        exact absurd he2.symm hne
      · cases himpb : impervious with
        | false => rfl
        | true =>
            exfalso
            have hrd := himp himpb
            exact k1 (by rw [hrd]; exact c2.symm)

/-- Witness for C3: an impervious device over the valid single-log region,
whose reads return exactly the committed values, satisfies the read-model
hypotheses, and the error characterization applies to it. -/
theorem read_log_variables_error_spec_witness :
    (∀ e, read_log_variables czG czR czL wsingle 77 false (trueReadout wsingle false)
        = .error e → e ≠ LogErr.CRCMismatch →
        srecover_given_cdb czG czR czL wsingle 77 false = none)
    ∧ (read_log_variables czG czR czL wsingle 77 false (trueReadout wsingle false)
          = .error LogErr.CRCMismatch →
        (srecover_given_cdb czG czR czL wsingle 77 false).isSome → true = false) :=
  read_log_variables_error_spec czG czR czL wsingle 77 false true (trueReadout wsingle false)
    (fun _ => rfl) (fun _ _ => rfl) (fun _ _ => rfl) (fun _ _ => rfl)

end VerifiedStorage
